import Mathlib

/-!
Verification of the call-matching dispatch engine (`CalledWithFn.ts`) of
bun-mock-extended: the Call Router that maintains a stack of
(argument-pattern, delegate) bindings and dispatches invocations to the
first matching binding, a fallback implementation, or `undefined`.

JavaScript values are modelled by `Val`; objects carry an identity (`vobj id`)
resolved through a `Heap` of descriptors recording exactly the runtime
features the router inspects: whether the object is an instance of the
library Matcher class, whether it exposes an `asymmetricMatch` function, and
the string value (if any) of its prototype `Symbol.toStringTag`.

The mock-function primitive (`jest.fn` from `bun:test`) is an external
collaborator; it is modelled per the spec contract: it records every
invocation, its implementation can be replaced and inspected, and a
delegate created by `jest.fn(fallback)` behaves as its user configuration
when present and as the fallback otherwise.
-/

namespace BunMock

/-- A JavaScript value as far as the router can observe it: primitives by
value, objects by identity (heap id). Numbers are modelled as integers,
which suffices for every matching claim (strict equality on numbers). -/
inductive Val where
  | undefined
  | null
  | vbool (b : Bool)
  | vnum (n : Int)
  | vstr (s : String)
  | vobj (id : Nat)
deriving DecidableEq, Repr

/-- The value found at the prototype under `Symbol.toStringTag`: a string, or
something of another runtime type (which `typeof tag === "string"` rejects). -/
inductive TagVal where
  | strTag (s : String)
  | otherTag
deriving DecidableEq, Repr

/-- Runtime classification of an object as the router sees it.

`libMatcher p` — Modelled from the spec: the Matcher class lives in
`Matchers.ts`, which is not part of the sources here; per the spec data
model a Matcher is a predicate object wrapping a one-argument boolean
function `asymmetricMatch(actual) → bool`, so an instance of the class
carries its predicate `p`.

`plain m` — any other object; `m` is its `asymmetricMatch` property when
that property exists and is a function, and `none` otherwise. -/
inductive ObjClass where
  | libMatcher (p : Val → Bool)
  | plain (m : Option (Val → Bool))

/-- Heap descriptor of one object: its classification and the value of its
prototype Symbol.toStringTag property (none when absent). -/
structure ObjDesc where
  cls : ObjClass
  protoTag : Option TagVal

/-- The object heap: descriptor of object id `i` at index `i`. -/
def Heap := List ObjDesc

/-- Descriptor lookup; ids outside the heap behave as a featureless object. -/
def heapGet (h : Heap) (i : Nat) : ObjDesc :=
  List.getD h i ⟨ObjClass.plain none, none⟩

/-- `matcher instanceof Matcher` (CalledWithFn.ts line 65 of index.ts). -/
def instanceOfMatcher (h : Heap) (v : Val) : Bool :=
  match v with
  | .vobj i =>
    match (heapGet h i).cls with
    | .libMatcher _ => true
    | .plain _ => false
  | _ => false

/-- `isJestAsymmetricMatcher` (index.ts lines 33-35): a truthy object whose
`asymmetricMatch` property is a function. A library Matcher instance also
satisfies this (its class defines the method). -/
def isJestAsymmetricMatcher (h : Heap) (v : Val) : Bool :=
  match v with
  | .vobj i =>
    match (heapGet h i).cls with
    | .libMatcher _ => true
    | .plain m => m.isSome
  | _ => false

/-- JavaScript `s.startsWith(pre)` modelled on the string's characters
(ECMAScript semantics: the receiver begins with the argument). -/
def jsStartsWith (s pre : String) : Bool :=
  pre.data.isPrefixOf s.data

/-- `isBunBuiltInMatcher` (index.ts lines 37-46): a truthy object whose
prototype Symbol.toStringTag is a string starting with "Expect". An absent
tag becomes the empty string and a non-string tag fails the typeof check,
so both yield false. -/
def isBunBuiltInMatcher (h : Heap) (v : Val) : Bool :=
  match v with
  | .vobj i =>
    match (heapGet h i).protoTag with
    | some (.strTag s) => jsStartsWith s "Expect"
    | some .otherTag => false
    | none => false
  | _ => false

/-- JavaScript strict equality `===` on the observable value domain:
primitives by value and type, objects by identity. -/
def strictEq (v w : Val) : Bool := v == w

/-- The predicate one pattern entry applies to one actual argument, from the
body of the `every` callback in `checkCalledWith` (index.ts lines 64-74):
Matcher instances and foreign asymmetric matchers via `asymmetricMatch`,
everything else via `===`. -/
def entryMatches (h : Heap) (matcher actual : Val) : Bool :=
  match matcher with
  | .vobj i =>
    match (heapGet h i).cls with
    | .libMatcher p => p actual
    | .plain (some p) => p actual
    | .plain none => strictEq matcher actual
  | m => strictEq m actual

/-- `instance.args.every((matcher, i) => ...)` over the pattern, where a
missing actual argument at index `i` reads as `undefined`. -/
def argsEvery (h : Heap) : List Val → List Val → Bool
  | [], _ => true
  | m :: ms, [] => entryMatches h m Val.undefined && argsEvery h ms []
  | m :: ms, a :: rest => entryMatches h m a && argsEvery h ms rest

/-- One entry of the calledWith stack (`CalledWithStackItem`): the argument
pattern and the delegate mock function, identified by its allocation id. -/
structure Binding where
  args : List Val
  calledWithFn : Nat
deriving DecidableEq, Repr

/-- Outcome of calling a JavaScript function: normal return or thrown value. -/
inductive CallOutcome where
  | ret (v : Val)
  | thrown (v : Val)
deriving DecidableEq, Repr

/-- Construction-time configuration of one router: the object heap and the
optional `fallbackMockImplementation`. -/
structure RouterCfg where
  heap : Heap
  fallbackMockImplementation : Option (List Val → CallOutcome)

/-- User configuration of the delegate mock functions: `env d = some f` when
delegate `d` has been configured (mockReturnValue / mockImplementation)
to behave as `f`, `none` when it is unconfigured. -/
def DelegateEnv := Nat → Option (List Val → CallOutcome)

/-- The delegate environment with delegate `d` configured to behave as `f`. -/
def envUpdate (env : DelegateEnv) (d : Nat) (f : List Val → CallOutcome) : DelegateEnv :=
  fun i => if i = d then some f else env i

/-- The all-unconfigured delegate environment. -/
def emptyEnv : DelegateEnv := fun _ => none

/-- Behavior of delegate `d` when invoked: the delegate is
`jest.fn(fallbackMockImplementation)` (index.ts line 94), so it runs its
user configuration when present, else the fallback, else returns undefined. -/
def delegateResult (cfg : RouterCfg) (env : DelegateEnv) (d : Nat) (actualArgs : List Val) :
    CallOutcome :=
  match env d with
  | some f => f actualArgs
  | none =>
    match cfg.fallbackMockImplementation with
    | some f => f actualArgs
    | none => CallOutcome.ret Val.undefined

/-- `checkCalledWith` (index.ts lines 58-80): scan the stack for the first
binding whose pattern matches all actual arguments; invoke its delegate
with the actual arguments, else the fallback, else yield undefined
(`fallback && fallback(...)` with fallback undefined is undefined). -/
def checkCalledWith (cfg : RouterCfg) (env : DelegateEnv) (calledWithStack : List Binding)
    (actualArgs : List Val) : CallOutcome :=
  match calledWithStack.find? (fun inst => argsEvery cfg.heap inst.args actualArgs) with
  | some inst => delegateResult cfg env inst.calledWithFn actualArgs
  | none =>
    match cfg.fallbackMockImplementation with
    | some f => f actualArgs
    | none => CallOutcome.ret Val.undefined

/-- The error thrown by `validateCalledWithArgs` (spec: UnsupportedMatcherError). -/
inductive CalledWithError where
  | unsupportedMatcher
deriving DecidableEq, Repr

/-- `validateCalledWithArgs` (index.ts lines 48-56): throw when the pattern
contains at least one Bun built-in matcher. -/
def validateCalledWithArgs (h : Heap) (args : List Val) : Except CalledWithError Unit :=
  if (args.filter (isBunBuiltInMatcher h)).length > 0 then
    Except.error CalledWithError.unsupportedMatcher
  else
    Except.ok ()

/-- What `fn.getMockImplementation()` currently reports for the router
function `fn = jest.fn(fallbackMockImplementation)`: nothing (constructed
without a fallback), the fallback implementation itself, or the installed
dispatcher closure. -/
inductive ImplState where
  | unset
  | fallbackImpl
  | dispatcher
deriving DecidableEq, Repr

/-- Mutable state of one Call Router: the installed implementation, the
calledWith stack, the id for the next `jest.fn` allocation (the router
function itself is allocation 0), how many times the dispatcher has been
installed, the call history recorded on the router function, and the call
log of the delegates (newest first, as (delegate id, arguments)). -/
structure RouterState where
  impl : ImplState
  calledWithStack : List Binding
  nextDelegate : Nat
  installCount : Nat
  fnCalls : List (List Val)
  delegateLog : List (Nat × List Val)
deriving DecidableEq, Repr

/-- The identity of the router function itself (`fn`), allocation 0. -/
def routerId : Nat := 0

/-- Router state right after `calledWithFn({fallbackMockImplementation})`
(index.ts lines 82-86): `jest.fn(fallback)` reports the fallback as its
implementation when one was supplied and nothing otherwise; the stack is
empty and delegate ids start after the router id. -/
def initState (cfg : RouterCfg) : RouterState :=
  { impl := if cfg.fallbackMockImplementation.isSome then ImplState.fallbackImpl
            else ImplState.unset
    calledWithStack := []
    nextDelegate := routerId + 1
    installCount := 0
    fnCalls := []
    delegateLog := [] }

/-- `fn.calledWith(...args)` (index.ts lines 88-105): validate the pattern
(throwing on Bun built-in matchers, before any mutation), create a fresh
delegate, install the dispatcher when the current implementation is absent
or still the fallback (resetting the stack as the source does), unshift the
new binding, and return the delegate. -/
def calledWith (cfg : RouterCfg) (st : RouterState) (args : List Val) :
    Except CalledWithError (Nat × RouterState) :=
  match validateCalledWithArgs cfg.heap args with
  | Except.error e => Except.error e
  | Except.ok _ =>
    let d := st.nextDelegate
    let st1 :=
      if st.impl = ImplState.unset ∨ st.impl = ImplState.fallbackImpl then
        { st with impl := ImplState.dispatcher
                  calledWithStack := []
                  installCount := st.installCount + 1 }
      else st
    Except.ok (d, { st1 with calledWithStack := ⟨args, d⟩ :: st1.calledWithStack
                             nextDelegate := d + 1 })

/-- Invoking the router function `fn(actualArgs)`: the mock primitive records
the call, then runs the installed implementation — nothing (undefined), the
fallback, or the dispatcher `checkCalledWith`; when a binding matches, its
delegate fires and that firing is recorded on the delegate. -/
def invoke (cfg : RouterCfg) (env : DelegateEnv) (st : RouterState) (actualArgs : List Val) :
    CallOutcome × RouterState :=
  let stRec := { st with fnCalls := st.fnCalls ++ [actualArgs] }
  match st.impl with
  | ImplState.unset => (CallOutcome.ret Val.undefined, stRec)
  | ImplState.fallbackImpl =>
    match cfg.fallbackMockImplementation with
    | some f => (f actualArgs, stRec)
    | none => (CallOutcome.ret Val.undefined, stRec)
  | ImplState.dispatcher =>
    match st.calledWithStack.find? (fun inst => argsEvery cfg.heap inst.args actualArgs) with
    | some inst =>
      (delegateResult cfg env inst.calledWithFn actualArgs,
       { stRec with delegateLog := (inst.calledWithFn, actualArgs) :: stRec.delegateLog })
    | none =>
      match cfg.fallbackMockImplementation with
      | some f => (f actualArgs, stRec)
      | none => (CallOutcome.ret Val.undefined, stRec)

/-- A sequence of `calledWith` registrations; a registration that throws
leaves the state unchanged (the exception surfaces to the caller). -/
def regMany (cfg : RouterCfg) (st : RouterState) : List (List Val) → RouterState
  | [] => st
  | p :: ps =>
    match calledWith cfg st p with
    | Except.ok (_, st1) => regMany cfg st1 ps
    | Except.error _ => regMany cfg st ps

/-- The asymmetric-match predicate an object offers at dispatch time, if any:
a Matcher instance offers its wrapped predicate, a plain object its
`asymmetricMatch` function when present. -/
def objPredicate (d : ObjDesc) : Option (Val → Bool) :=
  match d.cls with
  | ObjClass.libMatcher p => some p
  | ObjClass.plain m => m

/-- The reachability invariant of a router: before the dispatcher is
installed, the calledWith stack is empty. -/
def stackInv (st : RouterState) : Prop :=
  st.impl ≠ ImplState.dispatcher → st.calledWithStack = []

/-! ### Concrete example routers (used by the witnesses) -/

/-- A router configuration with an empty heap and no fallback. -/
def exCfg : RouterCfg := ⟨[], none⟩

/-- State of `exCfg` after registering the pattern `[5]`. -/
def exSt1 : RouterState :=
  ⟨ImplState.dispatcher, [⟨[Val.vnum 5], 1⟩], 2, 1, [], []⟩

/-- State of `exCfg` after registering the pattern `[5]` twice. -/
def exSt2 : RouterState :=
  ⟨ImplState.dispatcher, [⟨[Val.vnum 5], 2⟩, ⟨[Val.vnum 5], 1⟩], 3, 1, [], []⟩

/-- State of `exCfg` after registering the empty pattern `[]`. -/
def exStEmpty : RouterState :=
  ⟨ImplState.dispatcher, [⟨[], 1⟩], 2, 1, [], []⟩

/-- A fallback implementation that always throws "not mocked". -/
def notMockedFallback : List Val → CallOutcome :=
  fun _ => CallOutcome.thrown (Val.vstr "not mocked")

/-- A router configuration whose fallback throws "not mocked". -/
def notMockedCfg : RouterCfg := ⟨[], some notMockedFallback⟩

/-- Heap object 0: a Bun built-in matcher (prototype tag "ExpectAnything"). -/
def bunHeap : Heap :=
  [⟨ObjClass.plain (some (fun _ => true)), some (TagVal.strTag "ExpectAnything")⟩]

/-- A router configuration whose heap holds a Bun built-in matcher. -/
def bunCfg : RouterCfg := ⟨bunHeap, none⟩

/-- A predicate true exactly on numbers. -/
def isNumPred : Val → Bool
  | Val.vnum _ => true
  | _ => false

/-- Heap object 0: a foreign Jest-protocol asymmetric matcher — it exposes an
`asymmetricMatch` function, is not an instance of the library Matcher class,
and its prototype tag does not start with "Expect". -/
def foreignHeap : Heap :=
  [⟨ObjClass.plain (some isNumPred), some (TagVal.strTag "ForeignMatcher")⟩]

/-- A router configuration whose heap holds the foreign asymmetric matcher. -/
def foreignCfg : RouterCfg := ⟨foreignHeap, none⟩

/-! ### Helper lemmas -/

/-- Validation throws exactly when some pattern entry is a Bun built-in matcher. -/
theorem validateCalledWithArgs_eq (h : Heap) (args : List Val) :
    validateCalledWithArgs h args =
      (if args.any (isBunBuiltInMatcher h) then Except.error CalledWithError.unsupportedMatcher
       else Except.ok ()) := by
  unfold validateCalledWithArgs
  by_cases hb : args.any (isBunBuiltInMatcher h) = true
  · rw [if_pos hb, if_pos]
    rw [List.any_eq_true] at hb
    obtain ⟨a, ha, hpa⟩ := hb
    have : a ∈ args.filter (isBunBuiltInMatcher h) := List.mem_filter.mpr ⟨ha, hpa⟩
    exact List.length_pos.mpr (List.ne_nil_of_mem this)
  · rw [if_neg hb, if_neg]
    intro hlen
    rcases List.exists_mem_of_length_pos hlen with ⟨a, ha⟩
    rcases List.mem_filter.mp ha with ⟨hmem, hpa⟩
    exact hb (List.any_eq_true.mpr ⟨a, hmem, hpa⟩)

/-- Normal form of a `calledWith` registration: either it throws (some entry
is a Bun built-in matcher) or it returns the fresh delegate together with
the updated state — dispatcher installed, new binding at the front. -/
theorem calledWith_eq (cfg : RouterCfg) (st : RouterState) (args : List Val) :
    calledWith cfg st args =
      (if args.any (isBunBuiltInMatcher cfg.heap) then
        Except.error CalledWithError.unsupportedMatcher
      else
        Except.ok (st.nextDelegate,
          { impl := ImplState.dispatcher
            calledWithStack :=
              ⟨args, st.nextDelegate⟩ ::
                (if st.impl = ImplState.dispatcher then st.calledWithStack else [])
            nextDelegate := st.nextDelegate + 1
            installCount :=
              if st.impl = ImplState.dispatcher then st.installCount
              else st.installCount + 1
            fnCalls := st.fnCalls
            delegateLog := st.delegateLog })) := by
  unfold calledWith
  rw [validateCalledWithArgs_eq]
  by_cases hb : args.any (isBunBuiltInMatcher cfg.heap) = true
  · rw [if_pos hb, if_pos hb]
  · rw [if_neg hb, if_neg hb]
    by_cases hd : st.impl = ImplState.dispatcher
    · have hcond : ¬(st.impl = ImplState.unset ∨ st.impl = ImplState.fallbackImpl) := by
        rw [hd]; simp
      rw [if_neg hcond, if_pos hd, if_pos hd]
      simp [hd]
    · have hcond : st.impl = ImplState.unset ∨ st.impl = ImplState.fallbackImpl := by
        cases hi : st.impl
        · exact Or.inl rfl
        · exact Or.inr rfl
        · exact absurd hi hd
      rw [if_pos hcond, if_neg hd, if_neg hd]

/-- A successful registration always leaves the dispatcher installed. -/
theorem calledWith_ok_impl {cfg : RouterCfg} {st st' : RouterState} {args : List Val} {d : Nat}
    (h : calledWith cfg st args = Except.ok (d, st')) :
    st'.impl = ImplState.dispatcher ∧ d = st.nextDelegate ∧
    st'.nextDelegate = st.nextDelegate + 1 := by
  rw [calledWith_eq] at h
  by_cases hb : args.any (isBunBuiltInMatcher cfg.heap) = true
  · rw [if_pos hb] at h; cases h
  · rw [if_neg hb] at h
    simp only [Except.ok.injEq, Prod.mk.injEq] at h
    obtain ⟨hd1, hst⟩ := h
    subst hd1
    rw [← hst]
    exact ⟨rfl, rfl, rfl⟩

/-- A successful registration from a state with the dispatcher already
installed only pushes the new binding onto the front of the stack. -/
theorem calledWith_ok_of_dispatcher {cfg : RouterCfg} {st st' : RouterState}
    {args : List Val} {d : Nat} (hd : st.impl = ImplState.dispatcher)
    (h : calledWith cfg st args = Except.ok (d, st')) :
    d = st.nextDelegate ∧
    st' = { st with calledWithStack := ⟨args, d⟩ :: st.calledWithStack
                    nextDelegate := st.nextDelegate + 1 } := by
  rw [calledWith_eq] at h
  by_cases hb : args.any (isBunBuiltInMatcher cfg.heap) = true
  · rw [if_pos hb] at h; cases h
  · rw [if_neg hb, if_pos hd, if_pos hd] at h
    simp only [Except.ok.injEq, Prod.mk.injEq] at h
    obtain ⟨hd1, hst⟩ := h
    subst hd1
    rw [← hst]
    refine ⟨rfl, ?_⟩
    cases st
    simp_all

/-- Invoking a router with the dispatcher installed, when the scan finds a
matching binding: the binding's delegate fires with all actual arguments,
and the call is recorded on the router and on the delegate. -/
theorem invoke_dispatcher_found {cfg : RouterCfg} {env : DelegateEnv} {st : RouterState}
    {actualArgs : List Val} {inst : Binding} (hd : st.impl = ImplState.dispatcher)
    (hf : st.calledWithStack.find? (fun b => argsEvery cfg.heap b.args actualArgs) = some inst) :
    invoke cfg env st actualArgs =
      (delegateResult cfg env inst.calledWithFn actualArgs,
       { st with fnCalls := st.fnCalls ++ [actualArgs]
                 delegateLog := (inst.calledWithFn, actualArgs) :: st.delegateLog }) := by
  unfold invoke
  rw [hd]
  simp only [hf]

/-- Invoking a router with the dispatcher installed, when no binding matches:
the result is the fallback applied to the arguments, or undefined. -/
theorem invoke_dispatcher_unmatched {cfg : RouterCfg} {env : DelegateEnv} {st : RouterState}
    {actualArgs : List Val} (hd : st.impl = ImplState.dispatcher)
    (hf : st.calledWithStack.find? (fun b => argsEvery cfg.heap b.args actualArgs) = none) :
    invoke cfg env st actualArgs =
      ((match cfg.fallbackMockImplementation with
        | some f => f actualArgs
        | none => CallOutcome.ret Val.undefined),
       { st with fnCalls := st.fnCalls ++ [actualArgs] }) := by
  unfold invoke
  rw [hd]
  simp only [hf]
  cases cfg.fallbackMockImplementation <;> rfl

/-- The pattern matches all actual arguments exactly when every pattern entry
matches the actual argument at its own position (missing ones as undefined). -/
theorem argsEvery_iff (h : Heap) :
    ∀ (pat I : List Val), argsEvery h pat I = true ↔
      ∀ i < pat.length,
        entryMatches h (pat.getD i Val.undefined) (I.getD i Val.undefined) = true
  | [], I => by simp [argsEvery]
  | m :: ms, [] => by
    rw [argsEvery, Bool.and_eq_true, argsEvery_iff h ms []]
    constructor
    · rintro ⟨h1, h2⟩ i hi
      cases i with
      | zero => simpa using h1
      | succ j => simpa using h2 j (Nat.lt_of_succ_lt_succ hi)
    · intro hall
      refine ⟨by simpa using hall 0 (Nat.succ_pos _), fun j hj => ?_⟩
      simpa using hall (j + 1) (Nat.succ_lt_succ hj)
  | m :: ms, a :: rest => by
    rw [argsEvery, Bool.and_eq_true, argsEvery_iff h ms rest]
    constructor
    · rintro ⟨h1, h2⟩ i hi
      cases i with
      | zero => simpa using h1
      | succ j => simpa using h2 j (Nat.lt_of_succ_lt_succ hi)
    · intro hall
      refine ⟨by simpa using hall 0 (Nat.succ_pos _), fun j hj => ?_⟩
      simpa using hall (j + 1) (Nat.succ_lt_succ hj)

/-- Matching only looks at the actual arguments up to the pattern length. -/
theorem argsEvery_take (h : Heap) :
    ∀ (pat I : List Val), argsEvery h pat (I.take pat.length) = argsEvery h pat I
  | [], _ => rfl
  | _ :: _, [] => by simp
  | m :: ms, a :: rest => by
    simp only [List.length_cons, List.take_succ_cons, argsEvery]
    rw [argsEvery_take h ms rest]

/-- Once the dispatcher is installed it stays installed and the install count
never changes across any further sequence of registrations. -/
theorem regMany_dispatcher (cfg : RouterCfg) :
    ∀ (ps : List (List Val)) (st : RouterState), st.impl = ImplState.dispatcher →
      (regMany cfg st ps).impl = ImplState.dispatcher ∧
      (regMany cfg st ps).installCount = st.installCount
  | [], _, hd => ⟨hd, rfl⟩
  | p :: ps, st, hd => by
    rw [regMany]
    cases hc : calledWith cfg st p with
    | error e => exact regMany_dispatcher cfg ps st hd
    | ok v =>
      obtain ⟨d, st1⟩ := v
      obtain ⟨-, hst1⟩ := calledWith_ok_of_dispatcher hd hc
      have h1 : st1.impl = ImplState.dispatcher := by rw [hst1]; exact hd
      have h2 : st1.installCount = st.installCount := by rw [hst1]
      have hrec := regMany_dispatcher cfg ps st1 h1
      exact ⟨hrec.1, by rw [hrec.2, h2]⟩

/-- Delegate allocation ids never decrease across a registration sequence. -/
theorem regMany_nextDelegate_le (cfg : RouterCfg) :
    ∀ (ps : List (List Val)) (st : RouterState),
      st.nextDelegate ≤ (regMany cfg st ps).nextDelegate
  | [], _ => le_refl _
  | p :: ps, st => by
    rw [regMany]
    cases hc : calledWith cfg st p with
    | error e => exact regMany_nextDelegate_le cfg ps st
    | ok v =>
      obtain ⟨d, st1⟩ := v
      have h3 := (calledWith_ok_impl hc).2.2
      calc st.nextDelegate ≤ st1.nextDelegate := by rw [h3]; exact Nat.le_succ _
        _ ≤ _ := regMany_nextDelegate_le cfg ps st1

/-- Full characterization of the state produced by a successful registration. -/
theorem calledWith_ok_state {cfg : RouterCfg} {st st' : RouterState} {args : List Val} {d : Nat}
    (h : calledWith cfg st args = Except.ok (d, st')) :
    d = st.nextDelegate ∧
    st' = { impl := ImplState.dispatcher
            calledWithStack :=
              ⟨args, d⟩ :: (if st.impl = ImplState.dispatcher then st.calledWithStack else [])
            nextDelegate := st.nextDelegate + 1
            installCount :=
              if st.impl = ImplState.dispatcher then st.installCount else st.installCount + 1
            fnCalls := st.fnCalls
            delegateLog := st.delegateLog } := by
  rw [calledWith_eq] at h
  by_cases hb : args.any (isBunBuiltInMatcher cfg.heap) = true
  · rw [if_pos hb] at h; cases h
  · rw [if_neg hb] at h
    simp only [Except.ok.injEq, Prod.mk.injEq] at h
    obtain ⟨hd1, hst⟩ := h
    subst hd1
    exact ⟨rfl, hst.symm⟩

/-- State change of one invocation: the stack, implementation, allocation
counter and install count are untouched; the call is appended to the router
history; the delegate log grows exactly when a binding matched. -/
theorem invoke_state_frame (cfg : RouterCfg) (env : DelegateEnv) (st : RouterState)
    (I : List Val) :
    (invoke cfg env st I).2.calledWithStack = st.calledWithStack ∧
    (invoke cfg env st I).2.impl = st.impl ∧
    (invoke cfg env st I).2.nextDelegate = st.nextDelegate ∧
    (invoke cfg env st I).2.installCount = st.installCount ∧
    (invoke cfg env st I).2.fnCalls = st.fnCalls ++ [I] ∧
    ((invoke cfg env st I).2.delegateLog = st.delegateLog ∨
      ∃ inst, st.calledWithStack.find? (fun b => argsEvery cfg.heap b.args I) = some inst ∧
        (invoke cfg env st I).2.delegateLog = (inst.calledWithFn, I) :: st.delegateLog) := by
  unfold invoke
  cases him : st.impl
  · exact ⟨rfl, rfl, rfl, rfl, rfl, Or.inl rfl⟩
  · cases cfg.fallbackMockImplementation
    · exact ⟨rfl, rfl, rfl, rfl, rfl, Or.inl rfl⟩
    · exact ⟨rfl, rfl, rfl, rfl, rfl, Or.inl rfl⟩
  · cases hf : st.calledWithStack.find? (fun b => argsEvery cfg.heap b.args I)
    · simp only [hf]
      cases cfg.fallbackMockImplementation
      · exact ⟨rfl, rfl, rfl, rfl, rfl, Or.inl rfl⟩
      · exact ⟨rfl, rfl, rfl, rfl, rfl, Or.inl rfl⟩
    · rename_i inst
      simp only [hf]
      exact ⟨trivial, trivial, trivial, trivial, trivial, Or.inr ⟨inst, rfl, rfl⟩⟩

/-- Configuring one delegate and reading another is invisible. -/
theorem envUpdate_ne (env : DelegateEnv) (d i : Nat) (f : List Val → CallOutcome)
    (h : i ≠ d) : envUpdate env d f i = env i := by
  unfold envUpdate
  rw [if_neg h]

/-- Reading the configured delegate back yields the configuration. -/
theorem envUpdate_self (env : DelegateEnv) (d : Nat) (f : List Val → CallOutcome) :
    envUpdate env d f d = some f := by
  unfold envUpdate
  rw [if_pos rfl]

/-! ### Claim theorems -/

/-- Claim C1: dispatch is newest-first first-match-wins. If pattern p1 is
registered and then pattern p2, and both match the actual arguments I, then
invoking the router with I fires p2's delegate — a delegate distinct from
p1's — and returns its result; the two bindings are kept as separate stack
entries (never merged), even when p1 and p2 are identical. -/
theorem calledWith_lifo_shadowing (cfg : RouterCfg) (env : DelegateEnv)
    (st st1 st2 : RouterState) (p1 p2 I : List Val) (d1 d2 : Nat)
    (h1 : calledWith cfg st p1 = Except.ok (d1, st1))
    (h2 : calledWith cfg st1 p2 = Except.ok (d2, st2))
    (_m1 : argsEvery cfg.heap p1 I = true)
    (m2 : argsEvery cfg.heap p2 I = true) :
    d2 ≠ d1 ∧
    (∃ rest, st2.calledWithStack = ⟨p2, d2⟩ :: ⟨p1, d1⟩ :: rest) ∧
    (invoke cfg env st2 I).1 = delegateResult cfg env d2 I ∧
    (invoke cfg env st2 I).2.delegateLog = (d2, I) :: st2.delegateLog := by
  obtain ⟨hd1eq, hst1⟩ := calledWith_ok_state h1
  subst hd1eq
  subst hst1
  obtain ⟨hd2eq, hst2⟩ := calledWith_ok_of_dispatcher rfl h2
  have h2impl : st2.impl = ImplState.dispatcher := (calledWith_ok_impl h2).1
  have hne : d2 ≠ st.nextDelegate := by
    rw [hd2eq]; exact Nat.succ_ne_self _
  have hstk2 : st2.calledWithStack =
      ⟨p2, d2⟩ :: ⟨p1, st.nextDelegate⟩ ::
        (if st.impl = ImplState.dispatcher then st.calledWithStack else []) := by
    rw [hst2]
  have hfind : st2.calledWithStack.find? (fun b => argsEvery cfg.heap b.args I) =
      some ⟨p2, d2⟩ := by
    rw [hstk2]
    exact List.find?_cons_of_pos _ m2
  have hinv := @invoke_dispatcher_found cfg env st2 I ⟨p2, d2⟩ h2impl hfind
  exact ⟨hne, ⟨_, hstk2⟩, by rw [hinv], by rw [hinv]⟩

/-- Witness for C1: the same pattern [5] registered twice on a fresh router;
invoking with (5) fires the second delegate (id 2, not id 1), the two
identical-pattern bindings sit as separate stack entries. -/
theorem calledWith_lifo_shadowing_witness :
    (2 : Nat) ≠ 1 ∧
    (∃ rest, exSt2.calledWithStack = ⟨[Val.vnum 5], 2⟩ :: ⟨[Val.vnum 5], 1⟩ :: rest) ∧
    (invoke exCfg emptyEnv exSt2 [Val.vnum 5]).1 = delegateResult exCfg emptyEnv 2 [Val.vnum 5] ∧
    (invoke exCfg emptyEnv exSt2 [Val.vnum 5]).2.delegateLog = (2, [Val.vnum 5]) :: exSt2.delegateLog :=
  calledWith_lifo_shadowing exCfg emptyEnv (initState exCfg) exSt1 exSt2
    [Val.vnum 5] [Val.vnum 5] [Val.vnum 5] 1 2 rfl rfl rfl rfl

/-- Claim C2: a binding matches exactly when every pattern entry matches the
actual argument at its position — literal entries by strict equality,
entries exposing an asymmetricMatch predicate by that predicate — and the
first fully matching binding's delegate is invoked with the actual
arguments and its result returned; the pattern [5, "x"] matches (5, "x")
and does not match (5, "y"). -/
theorem binding_match_semantics :
    (∀ (h : Heap) (pat I : List Val),
      argsEvery h pat I = true ↔
        ∀ i < pat.length,
          entryMatches h (pat.getD i Val.undefined) (I.getD i Val.undefined) = true) ∧
    (∀ (h : Heap) (m a : Val), isJestAsymmetricMatcher h m = false →
      entryMatches h m a = strictEq m a) ∧
    (∀ (h : Heap) (i : Nat) (p : Val → Bool) (a : Val),
      objPredicate (heapGet h i) = some p → entryMatches h (Val.vobj i) a = p a) ∧
    (∀ (cfg : RouterCfg) (env : DelegateEnv) (st : RouterState) (I : List Val) (inst : Binding),
      st.impl = ImplState.dispatcher →
      st.calledWithStack.find? (fun b => argsEvery cfg.heap b.args I) = some inst →
      (invoke cfg env st I).1 = delegateResult cfg env inst.calledWithFn I) ∧
    (∀ h : Heap,
      argsEvery h [Val.vnum 5, Val.vstr "x"] [Val.vnum 5, Val.vstr "x"] = true ∧
      argsEvery h [Val.vnum 5, Val.vstr "x"] [Val.vnum 5, Val.vstr "y"] = false) := by
  refine ⟨argsEvery_iff, ?_, ?_, ?_, ?_⟩
  · intro h m a hm
    cases m with
    | vobj i =>
      simp only [isJestAsymmetricMatcher] at hm
      simp only [entryMatches]
      cases hc : (heapGet h i).cls with
      | libMatcher p => simp only [hc] at hm; exact Bool.noConfusion hm
      | plain q =>
        simp only [hc] at hm ⊢
        cases q with
        | some p => simp at hm
        | none => rfl
    | undefined => rfl
    | null => rfl
    | vbool b => rfl
    | vnum n => rfl
    | vstr s => rfl
  · intro h i p a hp
    simp only [objPredicate] at hp
    simp only [entryMatches]
    cases hc : (heapGet h i).cls with
    | libMatcher q =>
      simp only [hc] at hp ⊢
      injection hp with hqp
      rw [hqp]
    | plain q =>
      simp only [hc] at hp ⊢
      cases q with
      | some r =>
        simp only [Option.some.injEq] at hp
        rw [hp]
      | none => cases hp
  · intro cfg env st I inst hd hf
    rw [invoke_dispatcher_found hd hf]
  · intro h
    constructor
    · rfl
    · rfl

/-- Witness for C2: concrete evaluations — a literal number entry matches by
strict equality, and the pattern [5, "x"] matches (5, "x") but not (5, "y"). -/
theorem binding_match_semantics_witness :
    entryMatches [] (Val.vnum 7) (Val.vnum 7) = strictEq (Val.vnum 7) (Val.vnum 7) ∧
    argsEvery [] [Val.vnum 5, Val.vstr "x"] [Val.vnum 5, Val.vstr "x"] = true ∧
    argsEvery [] [Val.vnum 5, Val.vstr "x"] [Val.vnum 5, Val.vstr "y"] = false :=
  ⟨binding_match_semantics.2.1 [] (Val.vnum 7) (Val.vnum 7) rfl,
   (binding_match_semantics.2.2.2.2 []).1,
   (binding_match_semantics.2.2.2.2 []).2⟩

/-- Claim C3: registering a pattern containing a Bun built-in matcher throws
UnsupportedMatcherError synchronously and registers nothing — the router
state (stack, implementation, everything) is exactly as before the call. -/
theorem calledWith_rejects_bun_matchers (cfg : RouterCfg) (st : RouterState) (args : List Val)
    (hb : args.any (isBunBuiltInMatcher cfg.heap) = true) :
    calledWith cfg st args = Except.error CalledWithError.unsupportedMatcher ∧
    regMany cfg st [args] = st := by
  have herr : calledWith cfg st args = Except.error CalledWithError.unsupportedMatcher := by
    rw [calledWith_eq, if_pos hb]
  refine ⟨herr, ?_⟩
  rw [regMany, herr]
  rfl

/-- Witness for C3: a pattern holding an object whose prototype tag is
"ExpectAnything" is rejected and the fresh router is left untouched. -/
theorem calledWith_rejects_bun_matchers_witness :
    calledWith bunCfg (initState bunCfg) [Val.vobj 0] =
      Except.error CalledWithError.unsupportedMatcher ∧
    regMany bunCfg (initState bunCfg) [[Val.vobj 0]] = initState bunCfg :=
  calledWith_rejects_bun_matchers bunCfg (initState bunCfg) [Val.vobj 0] (by decide)

/-- Claim C4: when no binding matches (including a router with zero
registered bindings), the result is the fallback applied to the actual
arguments when one was supplied at construction and undefined otherwise;
whatever the fallback does — including throwing — propagates unmodified,
e.g. a fresh router whose fallback throws "not mocked" throws "not mocked". -/
theorem unmatched_call_fallthrough :
    (∀ (cfg : RouterCfg) (env : DelegateEnv) (st : RouterState) (I : List Val)
        (f : List Val → CallOutcome),
      st.impl = ImplState.dispatcher →
      st.calledWithStack.find? (fun b => argsEvery cfg.heap b.args I) = none →
      cfg.fallbackMockImplementation = some f → (invoke cfg env st I).1 = f I) ∧
    (∀ (cfg : RouterCfg) (env : DelegateEnv) (st : RouterState) (I : List Val),
      st.impl = ImplState.dispatcher →
      st.calledWithStack.find? (fun b => argsEvery cfg.heap b.args I) = none →
      cfg.fallbackMockImplementation = none →
      (invoke cfg env st I).1 = CallOutcome.ret Val.undefined) ∧
    (∀ (cfg : RouterCfg) (env : DelegateEnv) (I : List Val) (f : List Val → CallOutcome),
      cfg.fallbackMockImplementation = some f →
      (invoke cfg env (initState cfg) I).1 = f I) ∧
    (∀ (cfg : RouterCfg) (env : DelegateEnv) (I : List Val),
      cfg.fallbackMockImplementation = none →
      (invoke cfg env (initState cfg) I).1 = CallOutcome.ret Val.undefined) ∧
    (invoke notMockedCfg emptyEnv (initState notMockedCfg) []).1 =
      CallOutcome.thrown (Val.vstr "not mocked") := by
  refine ⟨?_, ?_, ?_, ?_, rfl⟩
  · intro cfg env st I f hd hf hfb
    rw [invoke_dispatcher_unmatched hd hf]
    simp only [hfb]
  · intro cfg env st I hd hf hfb
    rw [invoke_dispatcher_unmatched hd hf]
    simp only [hfb]
  · intro cfg env I f hfb
    simp [invoke, initState, hfb]
  · intro cfg env I hfb
    simp [invoke, initState, hfb]

/-- Witness for C4: a router with the "not mocked" fallback and one binding
for pattern [5], invoked with (6): no binding matches and the fallback's
exception surfaces. -/
theorem unmatched_call_fallthrough_witness :
    (invoke notMockedCfg emptyEnv
        ⟨ImplState.dispatcher, [⟨[Val.vnum 5], 1⟩], 2, 1, [], []⟩ [Val.vnum 6]).1 =
      CallOutcome.thrown (Val.vstr "not mocked") :=
  unmatched_call_fallthrough.1 notMockedCfg emptyEnv
    ⟨ImplState.dispatcher, [⟨[Val.vnum 5], 1⟩], 2, 1, [], []⟩ [Val.vnum 6]
    notMockedFallback rfl rfl rfl

/-- Claim C5: the base implementation is replaced with the dispatcher exactly
once, on the first successful registration; every later registration only
pushes a binding and never reinstalls, so the install count stays 1 across
any further registration sequence. -/
theorem dispatcher_installed_once (cfg : RouterCfg) (p : List Val) (d : Nat) (st1 : RouterState)
    (h : calledWith cfg (initState cfg) p = Except.ok (d, st1)) :
    st1.impl = ImplState.dispatcher ∧ st1.installCount = 1 ∧
    (∀ qs, (regMany cfg st1 qs).impl = ImplState.dispatcher ∧
      (regMany cfg st1 qs).installCount = 1) ∧
    (∀ q d2 st2, calledWith cfg st1 q = Except.ok (d2, st2) →
      st2.calledWithStack = ⟨q, d2⟩ :: st1.calledWithStack ∧ st2.installCount = 1) := by
  have hni : ¬((initState cfg).impl = ImplState.dispatcher) := by
    unfold initState
    cases cfg.fallbackMockImplementation <;> simp
  obtain ⟨hdeq, hst1⟩ := calledWith_ok_state h
  have h1impl : st1.impl = ImplState.dispatcher := by rw [hst1]
  have h1cnt : st1.installCount = 1 := by
    rw [hst1]
    simp only [if_neg hni]
    rfl
  refine ⟨h1impl, h1cnt, ?_, ?_⟩
  · intro qs
    have hrec := regMany_dispatcher cfg qs st1 h1impl
    exact ⟨hrec.1, by rw [hrec.2, h1cnt]⟩
  · intro q d2 st2 h2
    obtain ⟨hd2, hst2⟩ := calledWith_ok_of_dispatcher h1impl h2
    subst hd2
    constructor
    · rw [hst2]
    · rw [hst2]
      exact h1cnt

/-- Witness for C5: a fresh router; registering [5] installs the dispatcher
(install count 1) and a further registration of [6] keeps it at 1. -/
theorem dispatcher_installed_once_witness :
    exSt1.impl = ImplState.dispatcher ∧ exSt1.installCount = 1 ∧
    (regMany exCfg exSt1 [[Val.vnum 6]]).installCount = 1 :=
  have ht := dispatcher_installed_once exCfg [Val.vnum 5] 1 exSt1 rfl
  ⟨ht.1, ht.2.1, (ht.2.2.1 [[Val.vnum 6]]).2⟩

/-- Claim C6: any object exposing an asymmetricMatch function is accepted by
registration and matched at dispatch time by invoking that predicate, not by
strict equality; registration rejects exactly the objects whose prototype
Symbol.toStringTag is a string starting with "Expect". -/
theorem foreign_asymmetric_matchers_accepted :
    (∀ (cfg : RouterCfg) (st : RouterState) (args : List Val),
      (∃ d st', calledWith cfg st args = Except.ok (d, st')) ↔
        args.any (isBunBuiltInMatcher cfg.heap) = false) ∧
    (∀ (h : Heap) (i : Nat),
      isBunBuiltInMatcher h (Val.vobj i) = true ↔
        ∃ s, (heapGet h i).protoTag = some (TagVal.strTag s) ∧
          jsStartsWith s "Expect" = true) ∧
    (∀ (h : Heap) (i : Nat) (p : Val → Bool) (a : Val),
      (heapGet h i).cls = ObjClass.plain (some p) →
        isJestAsymmetricMatcher h (Val.vobj i) = true ∧
        instanceOfMatcher h (Val.vobj i) = false ∧
        entryMatches h (Val.vobj i) a = p a) := by
  refine ⟨?_, ?_, ?_⟩
  · intro cfg st args
    rw [calledWith_eq]
    by_cases hb : args.any (isBunBuiltInMatcher cfg.heap) = true
    · rw [if_pos hb]
      constructor
      · rintro ⟨d, st', hok⟩
        cases hok
      · intro hfalse
        rw [hb] at hfalse
        cases hfalse
    · rw [if_neg hb]
      constructor
      · intro _
        simpa using hb
      · intro _
        exact ⟨_, _, rfl⟩
  · intro h i
    simp only [isBunBuiltInMatcher]
    cases ht : (heapGet h i).protoTag with
    | none => simp
    | some t =>
      cases t with
      | strTag s => simp
      | otherTag => simp
  · intro h i p a hc
    refine ⟨?_, ?_, ?_⟩
    · simp only [isJestAsymmetricMatcher, hc]
      rfl
    · simp only [instanceOfMatcher, hc]
    · simp only [entryMatches, hc]

/-- Witness for C6: a foreign matcher object (prototype tag "ForeignMatcher",
asymmetricMatch accepting numbers) registers fine, is no Matcher instance,
and matches the actual argument 3 through its predicate. -/
theorem foreign_asymmetric_matchers_accepted_witness :
    (∃ d st', calledWith foreignCfg (initState foreignCfg) [Val.vobj 0] = Except.ok (d, st')) ∧
    entryMatches foreignHeap (Val.vobj 0) (Val.vnum 3) = true ∧
    instanceOfMatcher foreignHeap (Val.vobj 0) = false :=
  ⟨(foreign_asymmetric_matchers_accepted.1 foreignCfg (initState foreignCfg)
      [Val.vobj 0]).mpr (by decide),
   (foreign_asymmetric_matchers_accepted.2.2 foreignHeap 0 isNumPred (Val.vnum 3) rfl).2.2,
   (foreign_asymmetric_matchers_accepted.2.2 foreignHeap 0 isNumPred (Val.vnum 3) rfl).2.1⟩

/-- Claim C7: with a pattern of length n and more than n actual arguments,
matching looks only at the first n positions, while the winning delegate is
invoked with all actual arguments including the tail. -/
theorem variadic_tail_ignored :
    (∀ (h : Heap) (pat I : List Val),
      argsEvery h pat (I.take pat.length) = argsEvery h pat I) ∧
    (∀ (cfg : RouterCfg) (env : DelegateEnv) (st : RouterState) (I : List Val) (inst : Binding),
      st.impl = ImplState.dispatcher →
      st.calledWithStack.find? (fun b => argsEvery cfg.heap b.args I) = some inst →
      (invoke cfg env st I).1 = delegateResult cfg env inst.calledWithFn I ∧
      (invoke cfg env st I).2.delegateLog = (inst.calledWithFn, I) :: st.delegateLog) := by
  refine ⟨argsEvery_take, ?_⟩
  intro cfg env st I inst hd hf
  rw [invoke_dispatcher_found hd hf]
  exact ⟨rfl, rfl⟩

/-- Witness for C7: the one-entry pattern [5] sees only the first argument of
the call (5, "tail"), yet the delegate receives both arguments. -/
theorem variadic_tail_ignored_witness :
    argsEvery [] [Val.vnum 5] ([Val.vnum 5, Val.vstr "tail"].take 1) =
      argsEvery [] [Val.vnum 5] [Val.vnum 5, Val.vstr "tail"] ∧
    (invoke exCfg emptyEnv exSt1 [Val.vnum 5, Val.vstr "tail"]).2.delegateLog =
      (1, [Val.vnum 5, Val.vstr "tail"]) :: exSt1.delegateLog :=
  ⟨variadic_tail_ignored.1 [] [Val.vnum 5] [Val.vnum 5, Val.vstr "tail"],
   (variadic_tail_ignored.2 exCfg emptyEnv exSt1 [Val.vnum 5, Val.vstr "tail"]
      ⟨[Val.vnum 5], 1⟩ rfl rfl).2⟩

/-- Claim C8: every successful registration returns a freshly allocated
delegate — distinct from the router (allocation 0) and from every delegate
of any other registration, even one with an identical pattern — and a
configuration applied to that delegate affects only invocations whose scan
picks a binding carrying that delegate. -/
theorem calledWith_returns_fresh_delegate (cfg : RouterCfg) (st st1 : RouterState)
    (p : List Val) (d : Nat)
    (hr : routerId < st.nextDelegate)
    (h : calledWith cfg st p = Except.ok (d, st1)) :
    d = st.nextDelegate ∧ st1.nextDelegate = st.nextDelegate + 1 ∧ d ≠ routerId ∧
    routerId < st1.nextDelegate ∧
    (∀ qs q d2 st2, calledWith cfg (regMany cfg st1 qs) q = Except.ok (d2, st2) → d < d2) ∧
    (∀ (env : DelegateEnv) (f : List Val → CallOutcome) (I : List Val) (inst : Binding),
      st1.calledWithStack.find? (fun b => argsEvery cfg.heap b.args I) = some inst →
      (inst.calledWithFn = d → (invoke cfg (envUpdate env d f) st1 I).1 = f I) ∧
      (inst.calledWithFn ≠ d →
        (invoke cfg (envUpdate env d f) st1 I).1 = (invoke cfg env st1 I).1)) := by
  obtain ⟨himpl, hdeq, hnext⟩ := calledWith_ok_impl h
  refine ⟨hdeq, hnext, ?_, ?_, ?_, ?_⟩
  · rw [hdeq]
    omega
  · rw [hnext]
    omega
  · intro qs q d2 st2 h2
    have hle := regMany_nextDelegate_le cfg qs st1
    obtain ⟨-, hd2eq, -⟩ := calledWith_ok_impl h2
    rw [hdeq, hd2eq]
    have : st.nextDelegate < st1.nextDelegate := by
      rw [hnext]; omega
    exact Nat.lt_of_lt_of_le this hle
  · intro env f I inst hf
    constructor
    · intro heq
      rw [invoke_dispatcher_found himpl hf]
      simp only [delegateResult, heq, envUpdate_self]
    · intro hne2
      rw [@invoke_dispatcher_found cfg (envUpdate env d f) st1 I inst himpl hf,
        @invoke_dispatcher_found cfg env st1 I inst himpl hf]
      simp only [delegateResult, envUpdate_ne env d inst.calledWithFn f hne2]

/-- Witness for C8: on a fresh router the first registration returns delegate
1 (not the router, allocation 0); configuring that delegate to return 99
takes effect on a matching invocation. -/
theorem calledWith_returns_fresh_delegate_witness :
    (1 : Nat) = (initState exCfg).nextDelegate ∧ (1 : Nat) ≠ routerId ∧
    exSt1.nextDelegate = (initState exCfg).nextDelegate + 1 ∧
    (invoke exCfg (envUpdate emptyEnv 1 (fun _ => CallOutcome.ret (Val.vnum 99)))
        exSt1 [Val.vnum 5]).1 = CallOutcome.ret (Val.vnum 99) :=
  have ht := calledWith_returns_fresh_delegate exCfg (initState exCfg) exSt1
    [Val.vnum 5] 1 (by decide) rfl
  ⟨ht.1, ht.2.2.1, ht.2.1,
   ((ht.2.2.2.2.2 emptyEnv (fun _ => CallOutcome.ret (Val.vnum 99)) [Val.vnum 5]
      ⟨[Val.vnum 5], 1⟩ rfl).1 rfl)⟩

/-- Claim C9: a binding registered with the empty pattern matches every
subsequent invocation whatever the actual arguments, so it shadows every
earlier binding: the scan always stops at it and its delegate fires. -/
theorem empty_pattern_matches_all (cfg : RouterCfg) (st st1 : RouterState) (d : Nat)
    (h : calledWith cfg st [] = Except.ok (d, st1)) :
    (∀ I, argsEvery cfg.heap [] I = true) ∧
    (∀ I, st1.calledWithStack.find? (fun b => argsEvery cfg.heap b.args I) = some ⟨[], d⟩) ∧
    (∀ (env : DelegateEnv) (I : List Val),
      (invoke cfg env st1 I).1 = delegateResult cfg env d I ∧
      (invoke cfg env st1 I).2.delegateLog = (d, I) :: st1.delegateLog) := by
  obtain ⟨hdeq, hst1⟩ := calledWith_ok_state h
  have himpl : st1.impl = ImplState.dispatcher := by rw [hst1]
  have hstk : st1.calledWithStack =
      ⟨[], d⟩ :: (if st.impl = ImplState.dispatcher then st.calledWithStack else []) := by
    rw [hst1]
  have hf : ∀ I, st1.calledWithStack.find? (fun b => argsEvery cfg.heap b.args I) =
      some ⟨[], d⟩ := by
    intro I
    rw [hstk]
    exact List.find?_cons_of_pos _ rfl
  refine ⟨fun I => rfl, hf, fun env I => ?_⟩
  rw [@invoke_dispatcher_found cfg env st1 I ⟨[], d⟩ himpl (hf I)]
  exact ⟨rfl, rfl⟩

/-- Witness for C9: after registering the empty pattern on a fresh router,
the invocation (42) — an argument never mentioned anywhere — fires the
empty-pattern binding's delegate. -/
theorem empty_pattern_matches_all_witness :
    (invoke exCfg emptyEnv exStEmpty [Val.vnum 42]).1 =
      delegateResult exCfg emptyEnv 1 [Val.vnum 42] ∧
    exStEmpty.calledWithStack.find?
      (fun b => argsEvery exCfg.heap b.args [Val.vnum 42]) = some ⟨[], 1⟩ :=
  have ht := empty_pattern_matches_all exCfg (initState exCfg) exStEmpty 1 rfl
  ⟨(ht.2.2 emptyEnv [Val.vnum 42]).1, ht.2.1 [Val.vnum 42]⟩

/-- Claim C10: dispatch never mutates the binding stack — after an invocation
the stack, implementation, allocation counter and install count are exactly
as before, the only changes being the recorded call and possibly the firing
delegate's log — and a registration only front-pushes, leaving every earlier
binding intact (using the reachability invariant that the stack is empty
until the dispatcher is installed, which both operations preserve). -/
theorem invoke_and_register_frame :
    (∀ (cfg : RouterCfg) (env : DelegateEnv) (st : RouterState) (I : List Val),
      (invoke cfg env st I).2.calledWithStack = st.calledWithStack ∧
      (invoke cfg env st I).2.impl = st.impl ∧
      (invoke cfg env st I).2.nextDelegate = st.nextDelegate ∧
      (invoke cfg env st I).2.installCount = st.installCount ∧
      (invoke cfg env st I).2.fnCalls = st.fnCalls ++ [I] ∧
      ((invoke cfg env st I).2.delegateLog = st.delegateLog ∨
        ∃ inst, st.calledWithStack.find? (fun b => argsEvery cfg.heap b.args I) = some inst ∧
          (invoke cfg env st I).2.delegateLog = (inst.calledWithFn, I) :: st.delegateLog)) ∧
    (∀ (cfg : RouterCfg) (st st1 : RouterState) (p : List Val) (d : Nat),
      stackInv st → calledWith cfg st p = Except.ok (d, st1) →
      st1.calledWithStack = ⟨p, d⟩ :: st.calledWithStack ∧
      st1.fnCalls = st.fnCalls ∧ st1.delegateLog = st.delegateLog ∧ stackInv st1) ∧
    (∀ cfg : RouterCfg, stackInv (initState cfg)) ∧
    (∀ (cfg : RouterCfg) (env : DelegateEnv) (st : RouterState) (I : List Val),
      stackInv st → stackInv (invoke cfg env st I).2) := by
  refine ⟨invoke_state_frame, ?_, ?_, ?_⟩
  · intro cfg st st1 p d hinv h
    obtain ⟨hdeq, hst1⟩ := calledWith_ok_state h
    have himpl : st1.impl = ImplState.dispatcher := by rw [hst1]
    have hstk : st1.calledWithStack =
        ⟨p, d⟩ :: (if st.impl = ImplState.dispatcher then st.calledWithStack else []) := by
      rw [hst1]
    refine ⟨?_, by rw [hst1], by rw [hst1], fun hcon => absurd himpl hcon⟩
    rw [hstk]
    by_cases hd : st.impl = ImplState.dispatcher
    · rw [if_pos hd]
    · rw [if_neg hd, hinv hd]
  · intro cfg
    intro _
    rfl
  · intro cfg env st I hinv
    have hframe := invoke_state_frame cfg env st I
    intro hne
    rw [hframe.1]
    apply hinv
    rw [← hframe.2.1]
    exact hne

/-- Witness for C10: invoking the one-binding router leaves its stack as it
was, the fresh router satisfies the reachability invariant, and a second
registration only front-pushes onto the existing stack. -/
theorem invoke_and_register_frame_witness :
    (invoke exCfg emptyEnv exSt1 [Val.vnum 5]).2.calledWithStack = exSt1.calledWithStack ∧
    stackInv (initState exCfg) ∧
    exSt2.calledWithStack = ⟨[Val.vnum 5], 2⟩ :: exSt1.calledWithStack :=
  ⟨(invoke_and_register_frame.1 exCfg emptyEnv exSt1 [Val.vnum 5]).1,
   invoke_and_register_frame.2.2.1 exCfg,
   (invoke_and_register_frame.2.1 exCfg exSt1 exSt2 [Val.vnum 5] 2
      (fun hc => absurd rfl hc) rfl).1⟩

end BunMock
